import Mathlib

/-!
Verification of the rdmini stochastic reaction-diffusion simulator core.

This file gives a shallow embedding, in Lean 4, of the parts of the rdmini
source that the checked properties speak about:

* `ssa_pp_procsys`  — the process system with factored propensities
  (src/include/rdmini/ssa_pp_procsys.h); population counts, the
  population→(process,slot) contribution table, the process→(population,delta)
  table, the cached factor table, and the operations `add`, `set_count`,
  `apply` and `propensity`;
* `parallel_ssa`    — the simulator facade (src/rdmini/parallel_ssa.h):
  `species_to_pop_id`, the `count` / `set_count` accessors, and the
  time-bounded `advance` loop with its per-instance cached event;
* the weighted samplers (src/include/rdmini/sampler.h): the ordered
  systematic sampler, the multinomial draw sampler, and the generic
  order-reservoir template used by the adjusted-Pareto and
  Efraimidis–Spirakis samplers;
* the alias-method categorical distribution (src/include/rdmini/categorical.h);
* the species-entry validation of the model loader (src/rdmini/rdmodel.cc).

C++ `double` values are modelled as `ℚ` (all concrete inputs used in the
theorems are exactly representable and no claim hinges on rounding);
`count_type` (int32_t) arithmetic is modelled as `ℤ` and `size_t`/`uint32_t`
indices as `ℕ` (every concrete value appearing in the theorems is far below
the wrap-around bounds, and the explicit bound checks of the source are kept).
Code that throws is modelled with `Except String`; observer functors are
modelled by returning the list of notified keys, and random draws by passing
the sequence of values the RNG-backed distributions would produce.
-/

/-! ## Process system: `ssa_pp_procsys` (src/include/rdmini/ssa_pp_procsys.h) -/

/-- `max_process_order` — the `MaxOrder` template parameter at its default
value 3, which is also the instantiation `ssa_pp_procsys<3>` used by the
simulator facade. -/
def max_process_order : ℕ := 3

/-- `max_participants = max_population_index = numeric_limits<uint32_t>::max()-1`. -/
def max_participants : ℕ := 4294967294

/-- `numeric_limits<key_type>::max()` for `key_type = uint32_t`. -/
def key_type_max : ℕ := 4294967295

/-- Entry of `pop_to_pc_tbl`: process number `k` and factor slot `index`
(struct `pc_entry`). -/
structure pc_entry where
  k : ℕ
  index : ℕ
deriving DecidableEq, Repr

/-- Entry of `proc_delta_tbl`: population index `p` and the delta to apply
(struct `pd_entry`). -/
structure pd_entry where
  p : ℕ
  delta : ℤ
deriving DecidableEq, Repr

/-- The process system state.  Vectors indexed by instance/population/process
are modelled as total functions; the `n_pop`/`n_proc` fields record the sizes
the C++ vectors would have (entries beyond a vector's size are never read by
the modelled operations, and resizing zero-fills, which the total functions
realise by mapping untouched arguments to the fill value). -/
structure ssa_pp_procsys where
  n_pop : ℕ
  n_proc : ℕ
  n_instance : ℕ
  /-- `pop_count[j][p]`: population count for population `p` in instance `j`. -/
  pop_count : ℕ → ℕ → ℤ
  /-- `rate[k]`: rate constant of process `k`. -/
  rate : ℕ → ℚ
  /-- `propensity_tbl[j][k][i]`: cached factor slot `i` (0 ≤ i < max_process_order)
  of process `k` in instance `j`. -/
  propensity_tbl : ℕ → ℕ → ℕ → ℤ
  /-- `pop_to_pc_tbl[p]`: propensity contributions of population `p`. -/
  pop_to_pc_tbl : ℕ → List pc_entry
  /-- `proc_delta_tbl[k]`: population deltas applied when process `k` fires. -/
  proc_delta_tbl : ℕ → List pd_entry

/-- `initialise(n)` / the constructor `ssa_pp_procsys(n_instance_)`:
no populations, no processes, all tables empty (fresh `propensity_tbl`
entries are created value-initialised to 1 by `add`; the default here is
never read before `add` sets it). -/
def ssa_pp_procsys.init (n : ℕ) : ssa_pp_procsys :=
  { n_pop := 0
    n_proc := 0
    n_instance := n
    pop_count := fun _ _ => 0
    rate := fun _ => 0
    propensity_tbl := fun _ _ _ => 1
    pop_to_pc_tbl := fun _ => []
    proc_delta_tbl := fun _ => [] }

/-- `rdmini::small_map` mutation `m[p] += d` (operator[] default-initialises a
missing key to 0, then the caller increments/decrements it).  The map is
vector-backed and preserves first-insertion order. -/
def sm_add (m : List (ℕ × ℤ)) (p : ℕ) (d : ℤ) : List (ℕ × ℤ) :=
  if (m.lookup p).isSome then
    m.map (fun q => if q.1 = p then (q.1, q.2 + d) else q)
  else
    m ++ [(p, d)]

/-- State threaded through `add`'s loop over `q.left()`:
the `small_map` of deltas, the contents written to the `left_sorted` array
(in write order, so position = write index), the counter `nleft`, the running
`max_pop`, and the audit list of indices at which `left_sorted` was written
(the array has size `max_process_order`; an index ≥ `max_process_order`
records an out-of-bounds write of the source). -/
structure left_scan_state where
  pd : List (ℕ × ℤ)
  sorted : List ℕ
  nleft : ℕ
  maxPop : ℕ
  writes : List ℕ
deriving DecidableEq, Repr

/-- The loop `for (auto p: q.left())` of `ssa_pp_procsys::add`:
checks `nleft > max_process_order` (note: strict, checked before the write),
then `--proc_delta_entry[p]`, the participants bound, the write
`left_sorted[nleft++] = p`, and the `max_pop` update. -/
def scan_left : List ℕ → left_scan_state → Except String left_scan_state
  | [], st => .ok st
  | p :: rest, st =>
    if st.nleft > max_process_order then .error "too many reactants"
    else
      let pd' := sm_add st.pd p (-1)
      if pd'.length > max_participants then .error "too many participants"
      else
        scan_left rest
          { pd := pd'
            sorted := st.sorted ++ [p]
            nleft := st.nleft + 1
            maxPop := if p > st.maxPop then p else st.maxPop
            writes := st.writes ++ [st.nleft] }

/-- The loop `for (auto p: q.right())` of `ssa_pp_procsys::add`:
`++proc_delta_entry[p]`, participants bound, `max_pop` update. -/
def scan_right : List ℕ → List (ℕ × ℤ) → ℕ → Except String (List (ℕ × ℤ) × ℕ)
  | [], pd, maxPop => .ok (pd, maxPop)
  | p :: rest, pd, maxPop =>
    let pd' := sm_add pd p 1
    if pd'.length > max_participants then .error "too many participants"
    else scan_right rest pd' (if p > maxPop then p else maxPop)

/-- A process descriptor: `left()`, `right()` and `rate()`. -/
structure proc_desc where
  left : List ℕ
  right : List ℕ
  rate : ℚ
deriving Repr

/-- The per-instance `prop_entry` values that `ssa_pp_procsys::add` computes
in its `#pragma omp parallel for` loop *before* the `std::fill` call: the
runs `c, c-1, c-2, …` over equal sorted reactants.  In the source these
values are immediately overwritten by
`std::fill(prop_entry.begin(), prop_entry.end(), 1)`, so this computation is
dead code there; it is kept here because it witnesses the values the
subsequent `std::fill` discards. -/
def add_prop_entry_before_fill (counts : ℕ → ℤ) (sorted : List ℕ) : List ℤ :=
  (sorted.enum.map (fun ip => counts ip.2 - ((sorted.take ip.1).count ip.2 : ℤ)))

/-- `ssa_pp_procsys::add(q)` (src/include/rdmini/ssa_pp_procsys.h, lines
120–200).  Allocates key `n_proc`, scans `left` (sorting the reactants into
the fixed `left_sorted` array) and `right`, extends the population-indexed
tables, appends the delta map to `proc_delta_tbl`, pushes a
`(key, i)` entry to `pop_to_pc_tbl[p]` for the `i`-th sorted reactant `p`,
and pushes the new `propensity_tbl` entry — computed as the `c, c-1, …` runs
and then overwritten by `std::fill(..., 1)`, so the stored entry is all 1s —
and finally appends `q.rate()` to `rate`. -/
def ssa_pp_procsys.add (sys : ssa_pp_procsys) (q : proc_desc) :
    Except String ssa_pp_procsys := do
  if sys.n_proc ≥ key_type_max then throw "process index out of bounds"
  let key := sys.n_proc
  -- (the unsigned-overflow check `n_proc < key` cannot fire in ℕ)
  let ls ← scan_left q.left ⟨[], [], 0, 0, []⟩
  -- std::sort(left_sorted.data(), left_sorted.data()+nleft)
  let sorted := ls.sorted.insertionSort (· ≤ ·)
  let rm ← scan_right q.right ls.pd ls.maxPop
  let n_pop' := if rm.2 ≥ sys.n_pop then rm.2 + 1 else sys.n_pop
  -- pop_count[j].resize(n_pop) zero-fills; pop_to_pc_tbl.resize(n_pop) adds
  -- empty entries: both already realised by the total functions.
  let proc_delta' := fun k =>
    if k = key then rm.1.map (fun x => pd_entry.mk x.1 x.2) else sys.proc_delta_tbl k
  let pc' := sorted.enum.foldl
    (fun f ip => fun p' => if p' = ip.2 then f p' ++ [pc_entry.mk key ip.1] else f p')
    sys.pop_to_pc_tbl
  -- the computed prop_entry (dead in the source, overwritten by std::fill):
  let _dead := fun j => add_prop_entry_before_fill (sys.pop_count j) sorted
  -- std::fill(prop_entry.begin(), prop_entry.end(), 1):
  let prop' := fun j k i => if k = key then (1 : ℤ) else sys.propensity_tbl j k i
  let rate' := fun k => if k = key then q.rate else sys.rate k
  return { n_pop := n_pop'
           n_proc := key + 1
           n_instance := sys.n_instance
           pop_count := sys.pop_count
           rate := rate'
           propensity_tbl := prop'
           pop_to_pc_tbl := pc'
           proc_delta_tbl := proc_delta' }

/-- `apply_contrib_update(pc, d, notify, j)`: adds `d` to
`propensity_tbl[j][pc.k][pc.index]` and notifies `pc.k` (the notified key is
returned instead of invoking a functor). -/
def ssa_pp_procsys.apply_contrib_update (sys : ssa_pp_procsys) (pc : pc_entry)
    (d : ℤ) (j : ℕ) : ssa_pp_procsys × ℕ :=
  ({ sys with
      propensity_tbl := fun j' k i =>
        if j' = j ∧ k = pc.k ∧ i = pc.index then sys.propensity_tbl j' k i + d
        else sys.propensity_tbl j' k i },
   pc.k)

/-- `ssa_pp_procsys::set_count(p, c, update_notify, j)`: for each contribution
of population `p`, apply `apply_contrib_update` with delta
`c - pop_count[j][p]` (the count is only written after the loop, so the delta
is the same for each entry), then store `c`.  Returns the mutated system and
the list of notified process keys, in notification order. -/
def ssa_pp_procsys.set_count (sys : ssa_pp_procsys) (p : ℕ) (c : ℤ) (j : ℕ) :
    ssa_pp_procsys × List ℕ :=
  let res := (sys.pop_to_pc_tbl p).foldl
    (fun acc pc =>
      let r := acc.1.apply_contrib_update pc (c - acc.1.pop_count j p) j
      (r.1, acc.2 ++ [r.2]))
    (sys, [])
  ({ res.1 with
      pop_count := fun j' p' => if j' = j ∧ p' = p then c else res.1.pop_count j' p' },
   res.2)

/-- Body of `ssa_pp_procsys::apply` for one `(p, delta)` entry: update every
contribution of `pd.p` by `pd.delta`, then `pop_count[j][pd.p] += pd.delta`. -/
def ssa_pp_procsys.apply_pd (sys : ssa_pp_procsys) (pd : pd_entry) (j : ℕ) :
    ssa_pp_procsys × List ℕ :=
  let res := (sys.pop_to_pc_tbl pd.p).foldl
    (fun acc pc =>
      let r := acc.1.apply_contrib_update pc pd.delta j
      (r.1, acc.2 ++ [r.2]))
    (sys, [])
  ({ res.1 with
      pop_count := fun j' p' =>
        if j' = j ∧ p' = pd.p then res.1.pop_count j' p' + pd.delta
        else res.1.pop_count j' p' },
   res.2)

/-- `ssa_pp_procsys::apply(k, update_notify, j)`: iterate `proc_delta_tbl[k]`
applying each entry.  Returns the mutated system and the notified keys in
order. -/
def ssa_pp_procsys.apply (sys : ssa_pp_procsys) (k : ℕ) (j : ℕ) :
    ssa_pp_procsys × List ℕ :=
  (sys.proc_delta_tbl k).foldl
    (fun acc pd =>
      let r := acc.1.apply_pd pd j
      (r.1, acc.2 ++ r.2))
    (sys, [])

/-- `ssa_pp_procsys::count(p, j=0)`. -/
def ssa_pp_procsys.count (sys : ssa_pp_procsys) (p : ℕ) (j : ℕ := 0) : ℤ :=
  sys.pop_count j p

/-- `ssa_pp_procsys::propensity(k, j)`: `rate[k]` times the product of the
`max_process_order` cached factor slots. -/
def ssa_pp_procsys.propensity (sys : ssa_pp_procsys) (k : ℕ) (j : ℕ) : ℚ :=
  (List.range max_process_order).foldl
    (fun r i => r * (sys.propensity_tbl j k i : ℚ)) (sys.rate k)

/-! ### The specified propensity formula (spec §3.2 / §8 (I2)) -/

/-- The reactant multiset of a process sorted by population index,
`L_s(k)` of the specification. -/
def sorted_reactants (left : List ℕ) : List ℕ :=
  left.insertionSort (· ≤ ·)

/-- The propensity the specification prescribes:
`rate · Π_i max(0, count(p_i) − r_i)` where `p_i` is the `i`-th reactant in
sorted order and `r_i` the number of earlier occurrences of the same
population; absent slots contribute the factor 1 (the product simply has no
factor for them). -/
def spec_propensity (rate : ℚ) (left : List ℕ) (count : ℕ → ℤ) : ℚ :=
  rate * ((sorted_reactants left).enum.map
    (fun ip : ℕ × ℕ =>
      ((max 0 (count ip.2 - (((sorted_reactants left).take ip.1).count ip.2 : ℤ)) : ℤ) : ℚ))).prod

/-! ## Concrete systems used by the evaluation theorems -/

/-- Unwrap an `Except`-valued system, with a fallback (used only to state
concrete evaluations; each use is paired with a proof that the construction
succeeded). -/
def exD (e : Except String ssa_pp_procsys) (d : ssa_pp_procsys) : ssa_pp_procsys :=
  e.toOption.getD d

/-- One instance, one process `A → ∅` on population 0, rate 1. -/
def decay_sys : ssa_pp_procsys :=
  exD ((ssa_pp_procsys.init 1).add ⟨[0], [], 1⟩) (ssa_pp_procsys.init 1)

/-- `decay_sys` after `set_count(0, 1, instance 0)`. -/
def decay_sys1 : ssa_pp_procsys := (decay_sys.set_count 0 1 0).1

/-- One instance, one process `A + A → ∅` on population 0, rate 1
(the dimer model of spec §8, scenario 2). -/
def dimer_sys : ssa_pp_procsys :=
  exD ((ssa_pp_procsys.init 1).add ⟨[0, 0], [], 1⟩) (ssa_pp_procsys.init 1)

/-- `dimer_sys` after `set_count(0, 4, instance 0)`. -/
def dimer_sys4 : ssa_pp_procsys := (dimer_sys.set_count 0 4 0).1

/-- Claim C1: the claimed invariant — after construction via `add` and any
sequence of `set_count`/`apply`, `propensity(k, j)` equals
`rate(k) · Π_i max(0, count[j][p_i] − r_i)` — fails on the code.  The
misplaced `std::fill(prop_entry.begin(), prop_entry.end(), 1)` in `add`
overwrites the factor slots that the loop just computed (the `c, c−1, …`
runs), so every new process starts with factors all 1 instead of
`max(0, count − r)`, and the incremental updates then keep the factors off
by one forever.  Concretely: in `decay_sys1` (one process `A → ∅`, rate 1,
after `set_count(0, 1)`), the code's propensity is `1·(1+1)·1·1 = 2`,
while the specified formula gives `1·max(0, 1−0) = 1`; and in `dimer_sys4`
(`A + A → ∅`, rate 1, after `set_count(0, 4)`) the code gives `5·5·1 = 25`
instead of the specified `4·3 = 12` (the spec's own scenario expects
propensity `rate·4·3`). -/
theorem propensity_fill_bug_concrete :
    decay_sys1.propensity 0 0 = 2 ∧
    spec_propensity 1 [0] (decay_sys1.pop_count 0) = 1 ∧
    dimer_sys4.propensity 0 0 = 25 ∧
    spec_propensity 1 [0, 0] (dimer_sys4.pop_count 0) = 12 ∧
    (2 : ℚ) ≠ 1 ∧ (25 : ℚ) ≠ 12 := by
  have h1 : decay_sys1.propensity_tbl 0 0 0 = 2 := by decide
  have h2 : decay_sys1.propensity_tbl 0 0 1 = 1 := by decide
  have h3 : decay_sys1.propensity_tbl 0 0 2 = 1 := by decide
  have hr : decay_sys1.rate 0 = 1 := rfl
  have hc : decay_sys1.pop_count 0 0 = 1 := by decide
  have d1 : dimer_sys4.propensity_tbl 0 0 0 = 5 := by decide
  have d2 : dimer_sys4.propensity_tbl 0 0 1 = 5 := by decide
  have d3 : dimer_sys4.propensity_tbl 0 0 2 = 1 := by decide
  have dr : dimer_sys4.rate 0 = 1 := rfl
  have dc : dimer_sys4.pop_count 0 0 = 4 := by decide
  refine ⟨?_, ?_, ?_, ?_, by norm_num, by norm_num⟩
  · show (List.range max_process_order).foldl _ _ = 2
    rw [show List.range max_process_order = [0, 1, 2] from rfl]
    simp only [List.foldl_cons, List.foldl_nil, h1, h2, h3, hr]
    norm_num
  · show (1 : ℚ) * _ = 1
    rw [show sorted_reactants [0] = [0] from rfl]
    simp only [List.enum, List.enumFrom, List.map_cons, List.map_nil, List.take,
      List.count_nil, List.prod_cons, List.prod_nil, hc]
    norm_num
  · show (List.range max_process_order).foldl _ _ = 25
    rw [show List.range max_process_order = [0, 1, 2] from rfl]
    simp only [List.foldl_cons, List.foldl_nil, d1, d2, d3, dr]
    norm_num
  · show (1 : ℚ) * _ = 12
    rw [show sorted_reactants [0, 0] = [0, 0] from rfl]
    simp only [List.enum, List.enumFrom, List.map_cons, List.map_nil,
      List.prod_cons, List.prod_nil, dc]
    norm_num [List.count_cons]

/-! ## Observer notification traces (claim C6) -/

/-- The contribution-update fold used by `set_count` and `apply_pd` notifies
exactly the `k` of each processed entry, in order, regardless of the deltas:
generalised accumulator form. -/
theorem contrib_fold_trace (j : ℕ) (d : ssa_pp_procsys → ℤ)
    (l : List pc_entry) (sys : ssa_pp_procsys) (acc : List ℕ) :
    (l.foldl
      (fun acc pc =>
        let r := acc.1.apply_contrib_update pc (d acc.1) j
        (r.1, acc.2 ++ [r.2]))
      (sys, acc)).2 = acc ++ l.map pc_entry.k := by
  induction l generalizing sys acc with
  | nil => simp
  | cons pc rest ih =>
      simp only [List.foldl_cons, List.map_cons]
      rw [ih]
      simp [ssa_pp_procsys.apply_contrib_update]

/-- The contribution-update fold leaves `pop_to_pc_tbl` and `proc_delta_tbl`
untouched (only `propensity_tbl` is written). -/
theorem contrib_fold_tbls (j : ℕ) (d : ssa_pp_procsys → ℤ)
    (l : List pc_entry) (sys : ssa_pp_procsys) (acc : List ℕ) :
    (l.foldl
      (fun acc pc =>
        let r := acc.1.apply_contrib_update pc (d acc.1) j
        (r.1, acc.2 ++ [r.2]))
      (sys, acc)).1.pop_to_pc_tbl = sys.pop_to_pc_tbl ∧
    (l.foldl
      (fun acc pc =>
        let r := acc.1.apply_contrib_update pc (d acc.1) j
        (r.1, acc.2 ++ [r.2]))
      (sys, acc)).1.proc_delta_tbl = sys.proc_delta_tbl := by
  induction l generalizing sys acc with
  | nil => exact ⟨rfl, rfl⟩
  | cons pc rest ih =>
      simpa [ssa_pp_procsys.apply_contrib_update] using ih _ _

/-- `apply_pd` notification trace: once per contribution entry of `pd.p`. -/
theorem apply_pd_trace (sys : ssa_pp_procsys) (pd : pd_entry) (j : ℕ) :
    (sys.apply_pd pd j).2 = (sys.pop_to_pc_tbl pd.p).map pc_entry.k := by
  have h := contrib_fold_trace j (fun _ => pd.delta) (sys.pop_to_pc_tbl pd.p) sys []
  simpa [ssa_pp_procsys.apply_pd] using h

/-- `apply_pd` leaves the two constant dependency tables untouched. -/
theorem apply_pd_tbls (sys : ssa_pp_procsys) (pd : pd_entry) (j : ℕ) :
    (sys.apply_pd pd j).1.pop_to_pc_tbl = sys.pop_to_pc_tbl ∧
    (sys.apply_pd pd j).1.proc_delta_tbl = sys.proc_delta_tbl := by
  have h := contrib_fold_tbls j (fun _ => pd.delta) (sys.pop_to_pc_tbl pd.p) sys []
  constructor
  · simpa [ssa_pp_procsys.apply_pd] using h.1
  · simpa [ssa_pp_procsys.apply_pd] using h.2

/-- The outer fold of `apply`, with the dependency tables invariant threaded
through: the full notification trace is the concatenation, over the delta
entries, of one notification per contribution entry. -/
theorem apply_fold_trace (j : ℕ) (l : List pd_entry) (sys : ssa_pp_procsys)
    (acc : List ℕ) :
    (l.foldl
      (fun acc pd =>
        let r := acc.1.apply_pd pd j
        (r.1, acc.2 ++ r.2))
      (sys, acc)).2 =
      acc ++ l.flatMap (fun pd => (sys.pop_to_pc_tbl pd.p).map pc_entry.k) := by
  induction l generalizing sys acc with
  | nil => simp
  | cons pd rest ih =>
      simp only [List.foldl_cons, List.flatMap_cons]
      rw [ih, apply_pd_trace, (apply_pd_tbls sys pd j).1]
      simp

/-- Claim C6 (amended): for every population mutation, the caller-supplied
observer is notified once per *contribution entry* `(k, slot)` of
`pop_to_slots[p]`, in the order those entries occur — not once per distinct
process.  For `set_count(p, c, j)` the trace is exactly
`map k (pop_to_pc_tbl p)`; for `apply(k, j)` it is the concatenation of
those per-population traces over `proc_delta_tbl[k]`.  Consequently a
process in which `p` occurs with multiplicity `m` is notified `m` times per
mutation of `p` (its key occurs in the trace as often as it occurs in the
entry list). -/
theorem notify_once_per_contrib_entry (sys : ssa_pp_procsys) (p : ℕ) (c : ℤ)
    (k : ℕ) (j : ℕ) :
    (sys.set_count p c j).2 = (sys.pop_to_pc_tbl p).map pc_entry.k ∧
    (sys.apply k j).2 =
      (sys.proc_delta_tbl k).flatMap
        (fun pd => (sys.pop_to_pc_tbl pd.p).map pc_entry.k) := by
  constructor
  · have h := contrib_fold_trace j (fun s => c - s.pop_count j p)
      (sys.pop_to_pc_tbl p) sys []
    simpa [ssa_pp_procsys.set_count] using h
  · have h := apply_fold_trace j (sys.proc_delta_tbl k) sys []
    simpa [ssa_pp_procsys.apply] using h

/-- Claim C6 (counterexample): the claim as stated — "notified exactly once
per distinct process `k` occurring in `pop_to_slots[p]`; a process in which
`p` occurs as a reactant with multiplicity two or more is still notified
only once" — is false.  In `dimer_sys` (one process `A + A → ∅`),
`pop_to_pc_tbl[0]` holds the two entries `(0,0), (0,1)`, and
`set_count(0, 5, instance 0)` notifies the observer with the trace
`[0, 0]`: process 0 is notified twice, not once. -/
theorem set_count_notify_dup_counterexample :
    (dimer_sys.set_count 0 5 0).2 = [0, 0] ∧
    dimer_sys.pop_to_pc_tbl 0 = [⟨0, 0⟩, ⟨0, 1⟩] ∧
    ([0, 0] : List ℕ) ≠ [0] := by
  refine ⟨by decide, by decide, by decide⟩

/-! ## Claim C8: the reactant-count bound in `add` -/

/-- Claim C8: the claim — `add` throws `invalid_value("too many reactants")`
whenever `left()` has more than `max_process_order` (3) reactants, and
equivalently every `left_sorted` write is in bounds when `add` returns —
fails on the code by an off-by-one.  The guard is
`if (nleft > max_process_order)` and is checked *before* the write
`left_sorted[nleft++] = p`, so a descriptor with exactly 4 reactants is not
rejected: the scan completes with write indices `[0, 1, 2, 3]`, the last of
which is index 3 of the 3-element `std::array` — an out-of-bounds write —
and the surrounding `add` succeeds.  Only from the 5th reactant on does the
guard fire. -/
theorem add_reactant_bound_off_by_one :
    scan_left [0, 0, 0, 0] ⟨[], [], 0, 0, []⟩ =
      .ok ⟨[(0, -4)], [0, 0, 0, 0], 4, 0, [0, 1, 2, 3]⟩ ∧
    ((ssa_pp_procsys.init 1).add ⟨[0, 0, 0, 0], [], 1⟩).isOk = true ∧
    (3 : ℕ) ∈ [0, 1, 2, 3] ∧ ¬ (3 < max_process_order) ∧
    scan_left [0, 0, 0, 0, 0] ⟨[], [], 0, 0, []⟩ = .error "too many reactants" := by
  refine ⟨rfl, rfl, by decide, by decide, rfl⟩

/-! ## Simulator facade: `parallel_ssa` (src/rdmini/parallel_ssa.h) -/

/-- Per-instance state of the facade (struct `instance_state`): current time,
the `stale` flag, and the cached next event `(next_k_id, next_dt)`.  The
selector `ksel` itself is abstracted: the events it would produce are passed
to `advance` as an explicit sequence of draws. -/
structure instance_state where
  t : ℚ
  stale : Bool
  next_k_id : ℕ
  next_dt : ℚ
deriving Repr

/-- The simulator facade: model dimensions, the shared process system, and
the per-instance states. -/
structure parallel_ssa where
  n_species : ℕ
  n_cell : ℕ
  n_instances : ℕ
  ksys : ssa_pp_procsys
  states : ℕ → instance_state

/-- `parallel_ssa::species_to_pop_id(species_id, cell_id)
 = cell_id * n_species + species_id`. -/
def parallel_ssa.species_to_pop_id (S : parallel_ssa) (species_id cell_id : ℕ) : ℕ :=
  cell_id * S.n_species + species_id

/-- `parallel_ssa::set_count(instance, species_id, cell_id, count)`:
forwards to `ksys.set_count(p, count, ksel_update(instance), instance)` and
marks the instance stale.  (The `ksel_update` functor's writes to the
selector are not modelled; the notification trace it would receive is the
one established by `notify_once_per_contrib_entry`.) -/
def parallel_ssa.set_count (S : parallel_ssa) (inst species_id cell_id : ℕ)
    (c : ℤ) : parallel_ssa :=
  { S with
      ksys := (S.ksys.set_count (S.species_to_pop_id species_id cell_id) c inst).1
      states := fun i =>
        if i = inst then { S.states i with stale := true } else S.states i }

/-- `parallel_ssa::count(instance, species_id, cell_id)`: the source returns
`ksys.count(species_to_pop_id(species_id, cell_id))` — the `instance`
argument is accepted but not forwarded, so `ssa_pp_procsys::count`'s default
`j = 0` applies and the value always comes from instance 0. -/
def parallel_ssa.count (S : parallel_ssa) (inst species_id cell_id : ℕ) : ℤ :=
  S.ksys.count (S.species_to_pop_id species_id cell_id)

/-- A two-instance facade over one species in one cell, with a single
process `∅ → A` (so population 0 exists); both instance states fresh. -/
def two_instance_ssa : parallel_ssa :=
  { n_species := 1
    n_cell := 1
    n_instances := 2
    ksys := exD ((ssa_pp_procsys.init 2).add ⟨[], [0], 1⟩) (ssa_pp_procsys.init 2)
    states := fun _ => ⟨0, true, 0, 0⟩ }

/-- Claim C2: the claim — `count(j, s, c)` returns the count held by
instance `j` for population `c·n_species + s`, so that after
`set_count(j, s, c, n)` it returns `n` for every instance `j` — fails on
the code: `parallel_ssa::count` drops its `instance` argument (calling
`ksys.count(p)` whose instance parameter defaults to 0).  Concretely, on a
two-instance facade, after `set_count(1, 0, 0, 7)` the count of instance 1
is 7 in the process system, yet `count(1, 0, 0)` returns instance 0's value
0, not 7. -/
theorem facade_count_drops_instance :
    (two_instance_ssa.set_count 1 0 0 7).ksys.pop_count 1 0 = 7 ∧
    (two_instance_ssa.set_count 1 0 0 7).count 1 0 0 = 0 ∧
    (0 : ℤ) ≠ 7 := by
  refine ⟨by decide, by decide, by decide⟩

/-! ## Claim C5: `parallel_ssa::advance(instance, t_end, rng)` -/

/-- One `apply` step on the process system, keeping only the system (the
notifications go to the instance's selector, which is abstracted). -/
def apply_key (j : ℕ) (sys : ssa_pp_procsys) (k : ℕ) : ssa_pp_procsys :=
  (sys.apply k j).1

/-- The process system after firing a list of keys in order. -/
def apply_fold (j : ℕ) (sys : ssa_pp_procsys) (ks : List ℕ) : ssa_pp_procsys :=
  ks.foldl (apply_key j) sys

/-- The loop of `parallel_ssa::advance(instance, t_end, rng)` together with
`instance_state::get_next`:

    for (;;) {
        state.get_next(g);                       // draw only if stale
        if (state.t + state.next_dt > t_end) break;
        ksys.apply(state.next_k_id, update, instance);
        state.t += state.next_dt; state.stale = true;
    }
    state.next_dt -= t_end - state.t; state.t = t_end; return state.t;

The RNG-backed selector draws are supplied as the list `draws` of
`(key, dt)` events, consumed in order whenever `get_next` polls (`stale`);
`none` is returned if the loop would need a draw beyond the supplied list.
The result carries the mutated process system, the final instance state
(whose `t` field is the returned time), and the keys applied, in order. -/
def parallel_ssa.advance_loop (tEnd : ℚ) (j : ℕ) :
    ssa_pp_procsys → instance_state → List (ℕ × ℚ) →
      Option (ssa_pp_procsys × instance_state × List ℕ)
  | sys, st, draws =>
    if st.stale then
      match draws with
      | [] => none
      | (k, dt) :: rest =>
        if st.t + dt > tEnd then
          some (sys, ⟨tEnd, false, k, dt - (tEnd - st.t)⟩, [])
        else
          match parallel_ssa.advance_loop tEnd j (apply_key j sys k)
              ⟨st.t + dt, true, k, dt⟩ rest with
          | none => none
          | some (sys', st', ks) => some (sys', st', k :: ks)
    else
      if st.t + st.next_dt > tEnd then
        some (sys, ⟨tEnd, false, st.next_k_id, st.next_dt - (tEnd - st.t)⟩, [])
      else
        match parallel_ssa.advance_loop tEnd j (apply_key j sys st.next_k_id)
            ⟨st.t + st.next_dt, true, st.next_k_id, st.next_dt⟩ draws with
        | none => none
        | some (sys', st', ks) => some (sys', st', st.next_k_id :: ks)
termination_by _ st draws => 2 * draws.length + (if st.stale then 0 else 1)
decreasing_by
  all_goals simp_all

/-- Unfolding `advance_loop` on a stale state with an available draw. -/
theorem advance_loop_stale_cons (tEnd : ℚ) (j : ℕ) (sys : ssa_pp_procsys)
    (t : ℚ) (k0 : ℕ) (d0 : ℚ) (k : ℕ) (dt : ℚ) (rest : List (ℕ × ℚ)) :
    parallel_ssa.advance_loop tEnd j sys ⟨t, true, k0, d0⟩ ((k, dt) :: rest) =
      if t + dt > tEnd then
        some (sys, ⟨tEnd, false, k, dt - (tEnd - t)⟩, [])
      else
        match parallel_ssa.advance_loop tEnd j (apply_key j sys k)
            ⟨t + dt, true, k, dt⟩ rest with
        | none => none
        | some (sys', st', ks) => some (sys', st', k :: ks) := by
  rw [parallel_ssa.advance_loop.eq_def]
  rfl

/-- Unfolding `advance_loop` on a non-stale state: `get_next` does not poll
the selector, so the cached event is used and the draw list is untouched. -/
theorem advance_loop_fresh (tEnd : ℚ) (j : ℕ) (sys : ssa_pp_procsys)
    (t : ℚ) (k0 : ℕ) (d0 : ℚ) (draws : List (ℕ × ℚ)) :
    parallel_ssa.advance_loop tEnd j sys ⟨t, false, k0, d0⟩ draws =
      if t + d0 > tEnd then
        some (sys, ⟨tEnd, false, k0, d0 - (tEnd - t)⟩, [])
      else
        match parallel_ssa.advance_loop tEnd j (apply_key j sys k0)
            ⟨t + d0, true, k0, d0⟩ draws with
        | none => none
        | some (sys', st', ks) => some (sys', st', k0 :: ks) := by
  rw [parallel_ssa.advance_loop.eq_def]
  rfl

/-- The maximal prefix of successive events whose firing times (current time
plus the accumulated waiting times) stay ≤ `tEnd` — the events the claim
says must be applied. -/
def fired_events (tEnd : ℚ) : ℚ → List (ℕ × ℚ) → List (ℕ × ℚ)
  | _, [] => []
  | t, (k, dt) :: rest =>
    if t + dt ≤ tEnd then (k, dt) :: fired_events tEnd (t + dt) rest else []

/-- Core characterisation of the advance loop from a stale state: if the
supplied draw list extends past the fired prefix, the loop applies exactly
the fired prefix (via the process system's `apply`), ends at time `tEnd`
with `stale = false`, and caches the first unfired event with its waiting
time reduced by the time advanced past its draw point. -/
theorem advance_loop_stale_eq (tEnd : ℚ) (j : ℕ) :
    ∀ (draws : List (ℕ × ℚ)) (sys : ssa_pp_procsys) (t : ℚ) (k0 : ℕ) (d0 : ℚ),
    (fired_events tEnd t draws).length < draws.length →
    parallel_ssa.advance_loop tEnd j sys ⟨t, true, k0, d0⟩ draws =
      some (apply_fold j sys ((fired_events tEnd t draws).map Prod.fst),
            ⟨tEnd, false,
             (draws.getD (fired_events tEnd t draws).length (0, 0)).1,
             (draws.getD (fired_events tEnd t draws).length (0, 0)).2 -
               (tEnd - (t + ((fired_events tEnd t draws).map Prod.snd).sum))⟩,
            (fired_events tEnd t draws).map Prod.fst) := by
  intro draws
  induction draws with
  | nil => intro sys t k0 d0 h; simp [fired_events] at h
  | cons e rest ih =>
      intro sys t k0 d0 h
      obtain ⟨k, dt⟩ := e
      rw [advance_loop_stale_cons]
      by_cases hfire : t + dt ≤ tEnd
      · have hgt : ¬ (t + dt > tEnd) := not_lt.mpr hfire
        have hfe : fired_events tEnd t ((k, dt) :: rest) =
            (k, dt) :: fired_events tEnd (t + dt) rest := by
          rw [fired_events, if_pos hfire]
        have hlen : (fired_events tEnd (t + dt) rest).length < rest.length := by
          rw [hfe] at h; simpa using h
        rw [if_neg hgt, ih (apply_key j sys k) (t + dt) k dt hlen, hfe]
        simp only [List.map_cons, List.sum_cons, List.length_cons, List.getD_cons_succ,
          apply_fold, List.foldl_cons, add_assoc]
      · have hgt : t + dt > tEnd := lt_of_not_ge hfire
        have hfe : fired_events tEnd t ((k, dt) :: rest) = [] := by
          rw [fired_events, if_neg hfire]
        rw [if_pos hgt, hfe]
        simp [apply_fold]

/-- Claim C5: `advance(instance, t_end, rng)` applies, via the process
system's `apply`, exactly the successive selector events whose firing times
are ≤ `t_end` (the prefix `fired_events`); it returns `t_end` itself (the
final state's `t` is `tEnd`, which is what the source returns); and it
retains the first event whose firing time exceeds `t_end` with its waiting
time reduced by the time advanced, with `stale = false` — so that any
subsequent `advance` call (second conjunct) resumes from that cached event
without polling the selector: its result does not depend on the new draw
list, and the cached waiting time is reduced again by exactly the further
time advanced. -/
theorem advance_fires_le_tend_and_caches (tEnd : ℚ) (j : ℕ)
    (sys : ssa_pp_procsys) (t : ℚ) (k0 : ℕ) (d0 : ℚ) (draws : List (ℕ × ℚ))
    (hrem : (fired_events tEnd t draws).length < draws.length) :
    parallel_ssa.advance_loop tEnd j sys ⟨t, true, k0, d0⟩ draws =
      some (apply_fold j sys ((fired_events tEnd t draws).map Prod.fst),
            ⟨tEnd, false,
             (draws.getD (fired_events tEnd t draws).length (0, 0)).1,
             (draws.getD (fired_events tEnd t draws).length (0, 0)).2 -
               (tEnd - (t + ((fired_events tEnd t draws).map Prod.snd).sum))⟩,
            (fired_events tEnd t draws).map Prod.fst) ∧
    (∀ (tEnd2 : ℚ) (sys2 : ssa_pp_procsys) (draws2 : List (ℕ × ℚ)),
      tEnd2 < t + ((fired_events tEnd t draws).map Prod.snd).sum +
        (draws.getD (fired_events tEnd t draws).length (0, 0)).2 →
      parallel_ssa.advance_loop tEnd2 j sys2
          ⟨tEnd, false,
           (draws.getD (fired_events tEnd t draws).length (0, 0)).1,
           (draws.getD (fired_events tEnd t draws).length (0, 0)).2 -
             (tEnd - (t + ((fired_events tEnd t draws).map Prod.snd).sum))⟩ draws2 =
        some (sys2,
              ⟨tEnd2, false,
               (draws.getD (fired_events tEnd t draws).length (0, 0)).1,
               ((draws.getD (fired_events tEnd t draws).length (0, 0)).2 -
                 (tEnd - (t + ((fired_events tEnd t draws).map Prod.snd).sum))) -
                 (tEnd2 - tEnd)⟩,
              [])) := by
  refine ⟨advance_loop_stale_eq tEnd j draws sys t k0 d0 hrem, ?_⟩
  intro tEnd2 sys2 draws2 h2
  rw [advance_loop_fresh]
  rw [if_pos (by linarith)]

/-- Witness for `advance_fires_le_tend_and_caches`: the decay system with
draws `(k=0, dt=1), (k=0, dt=5)` and `t_end = 3` starting at `t = 0`:
the fired prefix is the single event at time 1 (1 ≤ 3 < 1+5), which is
one draw short of the supplied two, so the hypothesis holds and the theorem
applies. -/
theorem advance_fires_le_tend_and_caches_witness :
    (fired_events 3 0 [(0, 1), (0, 5)]).length <
      ([(0, 1), (0, 5)] : List (ℕ × ℚ)).length ∧
    (parallel_ssa.advance_loop 3 0 decay_sys ⟨0, true, 0, 0⟩ [(0, 1), (0, 5)] =
      some (apply_fold 0 decay_sys
              ((fired_events 3 0 [(0, 1), (0, 5)]).map Prod.fst),
            ⟨3, false,
             (([(0, 1), (0, 5)] : List (ℕ × ℚ)).getD
               (fired_events 3 0 [(0, 1), (0, 5)]).length (0, 0)).1,
             (([(0, 1), (0, 5)] : List (ℕ × ℚ)).getD
               (fired_events 3 0 [(0, 1), (0, 5)]).length (0, 0)).2 -
               (3 - (0 + ((fired_events 3 0 [(0, 1), (0, 5)]).map Prod.snd).sum))⟩,
            (fired_events 3 0 [(0, 1), (0, 5)]).map Prod.fst) ∧
    (∀ (tEnd2 : ℚ) (sys2 : ssa_pp_procsys) (draws2 : List (ℕ × ℚ)),
      tEnd2 < 0 + ((fired_events 3 0 [(0, 1), (0, 5)]).map Prod.snd).sum +
        (([(0, 1), (0, 5)] : List (ℕ × ℚ)).getD
          (fired_events 3 0 [(0, 1), (0, 5)]).length (0, 0)).2 →
      parallel_ssa.advance_loop tEnd2 0 sys2
          ⟨3, false,
           (([(0, 1), (0, 5)] : List (ℕ × ℚ)).getD
             (fired_events 3 0 [(0, 1), (0, 5)]).length (0, 0)).1,
           (([(0, 1), (0, 5)] : List (ℕ × ℚ)).getD
             (fired_events 3 0 [(0, 1), (0, 5)]).length (0, 0)).2 -
             (3 - (0 + ((fired_events 3 0 [(0, 1), (0, 5)]).map Prod.snd).sum))⟩
          draws2 =
        some (sys2,
              ⟨tEnd2, false,
               (([(0, 1), (0, 5)] : List (ℕ × ℚ)).getD
                 (fired_events 3 0 [(0, 1), (0, 5)]).length (0, 0)).1,
               ((([(0, 1), (0, 5)] : List (ℕ × ℚ)).getD
                 (fired_events 3 0 [(0, 1), (0, 5)]).length (0, 0)).2 -
                 (3 - (0 + ((fired_events 3 0 [(0, 1), (0, 5)]).map Prod.snd).sum))) -
                 (tEnd2 - 3)⟩,
              []))) :=
  ⟨by norm_num [fired_events],
   advance_fires_le_tend_and_caches 3 0 decay_sys 0 0 0 [(0, 1), (0, 5)]
     (by norm_num [fired_events])⟩

/-! ## Weighted samplers (src/include/rdmini/sampler.h) -/

/-- `std::numeric_limits<double>::max()` — returned by the order functors
when the parameter sequence is exhausted. -/
def dbl_max : ℚ := 2 ^ 1024 - 2 ^ 971

/-- The `std::partial_sum` walk of `ordered_systematic_sampler::param_type`:
the first element is copied without invoking the binary op (so it is *not*
validated); each later element `x` is checked `0 ≤ x ≤ 1` and added to the
running sum. -/
def os_psum_go (acc : ℚ) : List ℚ → Except String (List ℚ)
  | [] => .ok []
  | x :: rest =>
    if x < 0 ∨ x > 1 then .error "invalid inclusion probability"
    else (os_psum_go (acc + x) rest).map (fun l => (acc + x) :: l)

/-- `ordered_systematic_sampler`: the stored parameter `pi_psum` (prefix sums
of the inclusion probabilities). -/
structure ordered_systematic_sampler where
  pi_psum : List ℚ
deriving DecidableEq, Repr

/-- `ordered_systematic_sampler::param_type(pi_begin, pi_end)`. -/
def ordered_systematic_param (pi : List ℚ) :
    Except String ordered_systematic_sampler :=
  match pi with
  | [] => .ok ⟨[]⟩
  | x :: rest => (os_psum_go x rest).map (fun l => ⟨x :: l⟩)

/-- `ordered_systematic_sampler::max()`: 0 if the prefix sums are empty, else
`(size_type)std::ceil(pi_psum.back())` (the `toNat` clamp stands in for the
unsigned cast; the value is non-negative in every use here). -/
def ordered_systematic_sampler.max (P : ordered_systematic_sampler) : ℕ :=
  match P.pi_psum.getLast? with
  | none => 0
  | some v => (Int.ceil v).toNat

/-- The loop of `ordered_systematic_sampler::sample`: walks the prefix sums
`v`, breaking when the population is exhausted (`b == e`) or `n == n_max`;
on `u < v` it writes `*b` to the output and increments `u` by 1; `b` always
advances; *`n` is never incremented* (faithful to the source).  The state is
`(remaining psums, u, position, written output, n)`. -/
def os_sample_loop (pop : List ℤ) (nmax : ℕ) :
    List ℚ → ℚ → ℕ → List ℤ → ℕ → List ℤ × ℕ
  | [], _, _, w, n => (w, n)
  | v :: vs, u, pos, w, n =>
    if pos = pop.length ∨ n = nmax then (w, n)
    else if u < v then
      os_sample_loop pop nmax vs (u + 1) (pos + 1) (w ++ [pop.getD pos 0]) n
    else
      os_sample_loop pop nmax vs u (pos + 1) w n

/-- `ordered_systematic_sampler::sample(b, e, o, g)` with the uniform draw
`u ∈ [0,1)` made explicit.  Returns the written items and the returned
count `n`. -/
def ordered_systematic_sampler.sample (P : ordered_systematic_sampler)
    (pop : List ℤ) (u : ℚ) : List ℤ × ℕ :=
  os_sample_loop pop P.max P.pi_psum u 0 [] 0

/-- Claim C4: the claim — `sample` returns the number of items it wrote —
fails on the code: the counter `n` is initialised to 0, used in the
`n == n_max` break check, but never incremented, so `sample` always returns
0.  Concretely, with inclusion probability sequence `[1]` (prefix sums
`[1]`) and population `[42]`, any uniform draw `u = 1/2 ∈ [0,1)` makes the
sampler write one item, yet it returns 0. -/
theorem ordered_systematic_sample_returns_zero :
    ordered_systematic_param [1] = .ok ⟨[1]⟩ ∧
    (⟨[1]⟩ : ordered_systematic_sampler).sample [42] (1 / 2) = ([42], 0) ∧
    ([42] : List ℤ).length = 1 ∧ (0 : ℕ) ≠ 1 := by
  refine ⟨rfl, ?_, rfl, by decide⟩
  show os_sample_loop [42] (⟨[1]⟩ : ordered_systematic_sampler).max [1] (1/2) 0 [] 0 =
    ([42], 0)
  have hmax : (⟨[1]⟩ : ordered_systematic_sampler).max = 1 := by
    show (Int.ceil (1 : ℚ)).toNat = 1
    norm_num
  rw [hmax, os_sample_loop]
  norm_num [os_sample_loop]

/-! ### Order-based reservoir samplers (claim C10) -/

/-- `std::pair` lexicographic `operator<` on `(order, index)` keys. -/
def pair_lt (a b : ℚ × ℕ) : Prop := a.1 < b.1 ∨ (a.1 = b.1 ∧ a.2 < b.2)

instance (a b : ℚ × ℕ) : Decidable (pair_lt a b) := by
  unfold pair_lt; infer_instance

/-- `heap.front()` of the `std` max-heap: the maximum element of the heap
contents under the lexicographic pair order.  (The heap always holds pairs
with pairwise distinct index components, so the maximum is unique and this
abstraction of `make_heap`/`pop_heap`/`push_heap` is exact.) -/
def heap_front : List (ℚ × ℕ) → ℚ × ℕ
  | [] => (0, 0)
  | x :: rest => rest.foldl (fun a b => if pair_lt a b then b else a) x

/-- Phase 2 of `impl::order_reservoir_sample`: for each remaining population
item, generate the next order key; if it is less than the maximum key in
the heap, replace that maximum element (keeping its reservoir slot) and
overwrite the corresponding output slot.  `c` is the running order-functor
call counter. -/
def reservoir_phase2 (f : ℕ → ℚ) :
    List ℤ → ℕ → List (ℚ × ℕ) → (ℕ → ℤ) → List (ℚ × ℕ) × (ℕ → ℤ)
  | [], _, heap, o => (heap, o)
  | b :: rest, c, heap, o =>
    let q := f c
    let mx := heap_front heap
    if q < mx.1 then
      reservoir_phase2 f rest (c + 1) (heap.erase mx ++ [(q, mx.2)])
        (fun idx => if idx = mx.2 then b else o idx)
    else
      reservoir_phase2 f rest (c + 1) heap o

/-- `impl::order_reservoir_sample(n, b, e, o, f)`: fill the reservoir with
the first `min(n, |pop|)` items (recording one order key per item); if the
population ran out first, return the fill count `i < n`; otherwise run the
max-heap replacement phase over the rest and return `n`.  The output is a
random-access buffer modelled as a total function updated pointwise. -/
def order_reservoir_sample (n : ℕ) (pop : List ℤ) (o : ℕ → ℤ) (f : ℕ → ℚ) :
    (ℕ → ℤ) × ℕ :=
  if n = 0 then (o, 0)
  else
    let m := Nat.min n pop.length
    let heap0 := (List.range m).map (fun i => (f i, i))
    let o1 := fun idx => if idx < m then pop.getD idx 0 else o idx
    if m < n then (o1, m)
    else
      let r := reservoir_phase2 f (pop.drop n) n heap0 o1
      (r.2, n)

/-- `adjusted_pareto_sampler`: sample size `n` and the precomputed key
coefficients `qcoef`. -/
structure adjusted_pareto_sampler where
  n : ℕ
  qcoef : List ℚ
deriving Repr

/-- `adjusted_pareto_sampler::param_type(n, pi_begin, pi_end)`:
`d = Σ q(1−q)`, `ood2 = 1/d²`, and per element
`loga = q(1−q)(q−½)·ood2`, `a = 1 + loga + ½·loga²` (the source's quadratic
approximation of `exp loga`), `q ← (1−q)/q · a`. -/
def adjusted_pareto_param (n : ℕ) (pi : List ℚ) : adjusted_pareto_sampler :=
  let d := (pi.map (fun q => q * (1 - q))).sum
  let ood2 := 1 / (d * d)
  ⟨n, pi.map (fun q =>
    let loga := q * (1 - q) * (q - 1 / 2) * ood2
    let a := 1 + loga + 1 / 2 * loga * loga
    (1 - q) / q * a)⟩

/-- `adjusted_pareto_sampler::next_order`: the key of the `i`-th functor
call, with `u_i = us i` the uniform draws: `u·q_i/(1−u)`, or
`numeric_limits<double>::max()` once the coefficients are exhausted.  (The
functor's internal counter equals the call number for every call made while
coefficients remain, so indexing draws by call number is exact.) -/
def ap_next_order (q : List ℚ) (us : ℕ → ℚ) (i : ℕ) : ℚ :=
  if i < q.length then us i * q.getD i 0 / (1 - us i) else dbl_max

/-- `adjusted_pareto_sampler::sample`: delegate to the order-reservoir
template with the Pareto order functor. -/
def adjusted_pareto_sampler.sample (P : adjusted_pareto_sampler) (pop : List ℤ)
    (o : ℕ → ℤ) (us : ℕ → ℚ) : (ℕ → ℤ) × ℕ :=
  order_reservoir_sample P.n pop o (ap_next_order P.qcoef us)

/-- `adjusted_pareto_sampler::min()`. -/
def adjusted_pareto_sampler.min (P : adjusted_pareto_sampler) : ℕ := P.n

/-- `efraimidis_spirakis_sampler`: sample size `n` and the stored reciprocal
weights `oolambda`. -/
structure efraimidis_spirakis_sampler where
  n : ℕ
  oolambda : List ℚ
deriving Repr

/-- `efraimidis_spirakis_sampler::param_type(n, b, e)`: `l ← 1/l`. -/
def efraimidis_spirakis_param (n : ℕ) (lam : List ℚ) :
    efraimidis_spirakis_sampler :=
  ⟨n, lam.map (fun l => 1 / l)⟩

/-- `efraimidis_spirakis_sampler::next_order`: `E·(1/λ_i)` with `es i` the
standard exponential draws, or `numeric_limits<double>::max()` when
exhausted. -/
def es_next_order (q : List ℚ) (es : ℕ → ℚ) (i : ℕ) : ℚ :=
  if i < q.length then es i * q.getD i 0 else dbl_max

/-- `efraimidis_spirakis_sampler::sample`. -/
def efraimidis_spirakis_sampler.sample (E : efraimidis_spirakis_sampler)
    (pop : List ℤ) (o : ℕ → ℤ) (es : ℕ → ℚ) : (ℕ → ℤ) × ℕ :=
  order_reservoir_sample E.n pop o (es_next_order E.oolambda es)

/-- `efraimidis_spirakis_sampler::min()`. -/
def efraimidis_spirakis_sampler.min (E : efraimidis_spirakis_sampler) : ℕ := E.n

/-- With `0 < |pop| < n`, the reservoir template stops in its fill loop:
it writes population item `i` to output slot `i` for each `i < |pop|`
(each exactly once, in population order), leaves the rest of the buffer
untouched, and returns `|pop|`. -/
theorem order_reservoir_small (n : ℕ) (pop : List ℤ) (o : ℕ → ℤ) (f : ℕ → ℚ)
    (h1 : 0 < pop.length) (h2 : pop.length < n) :
    order_reservoir_sample n pop o f =
      (fun idx => if idx < pop.length then pop.getD idx 0 else o idx,
       pop.length) := by
  unfold order_reservoir_sample
  have hn : ¬ n = 0 := by omega
  have hm : Nat.min n pop.length = pop.length := Nat.min_eq_right (le_of_lt h2)
  rw [if_neg hn]
  simp only [hm, if_pos h2]

/-- Claim C10: for the order-based reservoir samplers (adjusted Pareto and
Efraimidis–Spirakis), a population of size `m` with `0 < m < n` does not
make `sample` fail: each sampler writes the `m` population elements to the
output exactly once, in population order (slot `i` receives `pop[i]`, other
slots are untouched), and returns `m`, which is fewer than `min()`. -/
theorem reservoir_small_population_ok (P : adjusted_pareto_sampler)
    (E : efraimidis_spirakis_sampler) (pop : List ℤ) (o : ℕ → ℤ)
    (us es : ℕ → ℚ) (h1 : 0 < pop.length) (h2 : pop.length < P.n)
    (h3 : pop.length < E.n) :
    (P.sample pop o us =
      (fun idx => if idx < pop.length then pop.getD idx 0 else o idx,
       pop.length) ∧
     (P.sample pop o us).2 < P.min) ∧
    (E.sample pop o es =
      (fun idx => if idx < pop.length then pop.getD idx 0 else o idx,
       pop.length) ∧
     (E.sample pop o es).2 < E.min) := by
  have hP := order_reservoir_small P.n pop o (ap_next_order P.qcoef us) h1 h2
  have hE := order_reservoir_small E.n pop o (es_next_order E.oolambda es) h1 h3
  refine ⟨⟨hP, ?_⟩, ⟨hE, ?_⟩⟩
  · show (order_reservoir_sample P.n pop o (ap_next_order P.qcoef us)).2 < P.n
    rw [hP]; exact h2
  · show (order_reservoir_sample E.n pop o (es_next_order E.oolambda es)).2 < E.n
    rw [hE]; exact h3

/-- Witness for `reservoir_small_population_ok`: adjusted-Pareto parameters
built from inclusion probabilities `(½, ½)` with `n = 2`, E–S parameters
from weights `(1, 1)` with `n = 2`, population `[10]` of size `m = 1`
(so `0 < m < n`), a zero output buffer, and constant draws `½`. -/
theorem reservoir_small_population_ok_witness :
    0 < ([10] : List ℤ).length ∧
    ([10] : List ℤ).length < (adjusted_pareto_param 2 [1/2, 1/2]).n ∧
    ([10] : List ℤ).length < (efraimidis_spirakis_param 2 [1, 1]).n ∧
    (((adjusted_pareto_param 2 [1/2, 1/2]).sample [10] (fun _ => 0) (fun _ => 1/2) =
        (fun idx => if idx < ([10] : List ℤ).length then ([10] : List ℤ).getD idx 0
          else (fun _ => (0 : ℤ)) idx,
         ([10] : List ℤ).length) ∧
      ((adjusted_pareto_param 2 [1/2, 1/2]).sample [10] (fun _ => 0)
          (fun _ => 1/2)).2 < (adjusted_pareto_param 2 [1/2, 1/2]).min) ∧
     ((efraimidis_spirakis_param 2 [1, 1]).sample [10] (fun _ => 0) (fun _ => 1/2) =
        (fun idx => if idx < ([10] : List ℤ).length then ([10] : List ℤ).getD idx 0
          else (fun _ => (0 : ℤ)) idx,
         ([10] : List ℤ).length) ∧
      ((efraimidis_spirakis_param 2 [1, 1]).sample [10] (fun _ => 0)
          (fun _ => 1/2)).2 < (efraimidis_spirakis_param 2 [1, 1]).min)) :=
  ⟨by decide, by decide, by decide,
   reservoir_small_population_ok (adjusted_pareto_param 2 [1/2, 1/2])
     (efraimidis_spirakis_param 2 [1, 1]) [10] (fun _ => 0) (fun _ => 1/2)
     (fun _ => 1/2) (by decide) (by decide) (by decide)⟩

/-! ## Categorical distribution (src/include/rdmini/categorical.h) -/

/-- The alias table of `categorical_distribution::param_type`:
`tbl[i] = (q_i, alias_i)`. -/
structure categorical_param where
  tbl : List (ℚ × ℕ)
deriving DecidableEq, Repr

/-- `q(i)` — read accessor on a table. -/
def cat_q (t : List (ℚ × ℕ)) (i : ℕ) : ℚ := (t.getD i (0, 0)).1

/-- `alias(i)` — read accessor on a table. -/
def cat_alias (t : List (ℚ × ℕ)) (i : ℕ) : ℕ := (t.getD i (0, 0)).2

/-- `q(i) = v` — write accessor. -/
def cat_setq (t : List (ℚ × ℕ)) (i : ℕ) (v : ℚ) : List (ℚ × ℕ) :=
  t.set i (v, cat_alias t i)

/-- `alias(i) = a` — write accessor. -/
def cat_seta (t : List (ℚ × ℕ)) (i : ℕ) (a : ℕ) : List (ℚ × ℕ) :=
  t.set i (cat_q t i, a)

/-- `while (i < n && !(q(i) <= 1)) ++i` — advance to the next "small" index. -/
def scan_small (t : List (ℚ × ℕ)) (i : ℕ) : ℕ :=
  if i < t.length ∧ ¬ (cat_q t i ≤ 1) then scan_small t (i + 1) else i
termination_by t.length - i

/-- `while (i < n && q(i) <= 1) ++i` — advance to the next "big" index. -/
def scan_big (t : List (ℚ × ℕ)) (i : ℕ) : ℕ :=
  if i < t.length ∧ cat_q t i ≤ 1 then scan_big t (i + 1) else i
termination_by t.length - i

/-- The Vose alias-assignment walk of `param_type`'s constructor
(`while (i_small < n && i_big < n) { … }`), with state
`(tbl, i_small, i_big, i_small_top)`.  Each iteration strictly increases
`i_big + i_small_top`, each of which stays ≤ `n`, so the loop runs at most
`2n + 2` iterations; the fuel is set to that bound and the fuel-exhausted
branch is unreachable. -/
def cat_build_loop : ℕ → List (ℚ × ℕ) → ℕ → ℕ → ℕ → List (ℚ × ℕ) × ℕ × ℕ × ℕ
  | 0, t, iS, iB, iT => (t, iS, iB, iT)
  | fuel + 1, t, iS, iB, iT =>
    if iS < t.length ∧ iB < t.length then
      let t1 := cat_seta t iS iB
      let t2 := cat_setq t1 iB (cat_q t1 iB + cat_q t1 iS - 1)
      if cat_q t2 iB ≤ 1 then
        if iB < iT then
          cat_build_loop fuel t2 iB (scan_big t2 iB) iT
        else
          cat_build_loop fuel t2 (scan_small t2 (iT + 1)) (scan_big t2 iB)
            (scan_small t2 (iT + 1))
      else
        cat_build_loop fuel t2 (scan_small t2 (iT + 1)) iB (scan_small t2 (iT + 1))
    else (t, iS, iB, iT)

/-- `while (i < n) q(i++) = 1` — the leftover fill loops. -/
def fill_ones (t : List (ℚ × ℕ)) (i : ℕ) : List (ℚ × ℕ) :=
  if h : i < t.length then fill_ones (cat_setq t i 1) (i + 1) else t
termination_by t.length - i
decreasing_by
  simp only [cat_setq, List.length_set]
  omega

/-- The body of `categorical_distribution::param_type::param_type(b, e)`
(src/include/rdmini/categorical.h, lines 30–78): copy the weights into the
table (`table_entry(q_ = w, a_ = 0)`), normalise by `scale = n / Σw`, run
the alias-assignment walk from the first small and big indices, then give
every leftover slot probability 1.  (In ℚ, division by a zero sum yields 0
where IEEE doubles give ±inf/NaN; no theorem below evaluates that case, and
in neither arithmetic does any failure occur.) -/
def categorical_param_ctor (w : List ℚ) : categorical_param :=
  let n := w.length
  let t0 := w.map (fun x => (x, (0 : ℕ)))
  let sum := w.sum
  let scale := (n : ℚ) / sum
  let t1 := t0.map (fun e => (e.1 * scale, e.2))
  let iS0 := scan_small t1 0
  let iB0 := scan_big t1 0
  let r := cat_build_loop (2 * n + 2) t1 iS0 iB0 iS0
  let t2 := r.1
  let iS := r.2.1
  let iB := r.2.2.1
  let iT := r.2.2.2
  let t3 := if iS < t2.length then fill_ones (cat_setq t2 iS 1) (iT + 1) else t2
  let t4 := fill_ones t3 iB
  ⟨t4⟩

/-- `categorical_distribution::param_type::param_type(b, e)` as the
`Except`-typed construction: the constructor body contains no `throw`
whatsoever (no weight-sign check, no zero-sum check), so its translation is
unconditionally `.ok`. -/
def categorical_param_type (w : List ℚ) : Except String categorical_param :=
  .ok (categorical_param_ctor w)

/-- `categorical_distribution::operator()(g, p)`: one uniform draw
`d ∈ [0, n)` split into integer part `bin` and fraction `u`; return `bin`
if `u < q(bin)`, else `alias(bin)`. -/
def categorical_draw (P : categorical_param) (d : ℚ) : ℕ :=
  if P.tbl.length = 0 then 0
  else
    let bin := (Int.floor d).toNat
    let u := d - Int.floor d
    if u < cat_q P.tbl bin then bin else cat_alias P.tbl bin

/-- `fill_ones` preserves the table length. -/
theorem fill_ones_length (t : List (ℚ × ℕ)) (i : ℕ) :
    (fill_ones t i).length = t.length := by
  rw [fill_ones]
  split
  · rw [fill_ones_length]
    simp [cat_setq]
  · rfl
termination_by t.length - i
decreasing_by
  simp only [cat_setq, List.length_set]
  omega

/-- The alias walk preserves the table length. -/
theorem cat_build_loop_length (fuel : ℕ) :
    ∀ (t : List (ℚ × ℕ)) (iS iB iT : ℕ),
    (cat_build_loop fuel t iS iB iT).1.length = t.length := by
  induction fuel with
  | zero => intro t iS iB iT; rfl
  | succ fuel ih =>
      intro t iS iB iT
      rw [cat_build_loop]
      split_ifs
      case _ h1 h2 =>
        dsimp only
        split
        · rw [ih]; simp [cat_setq, cat_seta]
        · rw [ih]; simp [cat_setq, cat_seta]
      case _ h1 h2 =>
        dsimp only
        split
        · rw [ih]; simp [cat_setq, cat_seta]
        · rw [ih]; simp [cat_setq, cat_seta]
      case _ => rfl

/-- The categorical construction yields one `(q, alias)` entry per input
weight. -/
theorem categorical_ctor_tbl_length (w : List ℚ) :
    (categorical_param_ctor w).tbl.length = w.length := by
  unfold categorical_param_ctor
  simp only [fill_ones_length]
  split
  · simp [fill_ones_length, cat_setq, cat_build_loop_length]
  · simp [cat_build_loop_length]

/-- Claim C7 (counterexample): the claim — construction of
`categorical_distribution::param_type` fails with `domain_error` whenever
some weight is negative or the weight sum is zero — is false: the
constructor performs no validation at all (its body contains no throw), so
for the weight sequence `[-1, 2]`, whose first weight is negative,
construction completes normally with a (2-entry) table instead of failing. -/
theorem categorical_ctor_accepts_negative_weight :
    ((-1 : ℚ) < 0) ∧
    categorical_param_type [-1, 2] = .ok (categorical_param_ctor [-1, 2]) ∧
    (∀ msg : String, categorical_param_type [-1, 2] ≠ .error msg) ∧
    (categorical_param_ctor [-1, 2]).tbl.length = 2 := by
  refine ⟨by norm_num, rfl, fun msg h => by simp [categorical_param_type] at h, ?_⟩
  rw [categorical_ctor_tbl_length]
  rfl

/-- Claim C7 (amended): the `param_type` construction never fails — it
performs no validation of the weights (no negativity check, no zero-sum
check) and for every weight sequence, including those with negative weights
or zero sum, it completes and produces an alias table with exactly one
`(q, alias)` entry per weight. -/
theorem categorical_ctor_never_fails (w : List ℚ) :
    categorical_param_type w = .ok (categorical_param_ctor w) ∧
    (categorical_param_ctor w).tbl.length = w.length :=
  ⟨rfl, categorical_ctor_tbl_length w⟩

/-! ## Multinomial draw sampler (claim C3) -/

/-- `multinomial_draw_sampler::param_type`: the sample count `n` and the
stored categorical parameter. -/
structure multinomial_draw_sampler where
  n : ℕ
  cat_param : categorical_param
deriving DecidableEq, Repr

/-- The hardcoded vector `pbis = {0.07, 0.17, 0.41, 0.61, 0.83, 0.91}` that
the iterator constructor of `multinomial_draw_sampler::param_type` builds
its categorical from (the decimal literals are modelled as exact rationals;
nothing below depends on their values, only on their number and on their
independence from the supplied weights). -/
def pbis : List ℚ := [7/100, 17/100, 41/100, 61/100, 83/100, 91/100]

/-- `multinomial_draw_sampler::param_type(n_, mu_begin, mu_end)`
(src/include/rdmini/sampler.h, lines 168–173): stores `n`, and builds
`cat_param` from the hardcoded `pbis` — the supplied weight range
`[mu_begin, mu_end)` is ignored (the original forwarding of the weights is
present in the source only as a commented-out constructor directly above). -/
def multinomial_draw_param (n : ℕ) (w : List ℚ) : multinomial_draw_sampler :=
  ⟨n, categorical_param_ctor pbis⟩

/-- `multinomial_draw_sampler::sample(b, e, o, g)` with the categorical's
uniform draws `ds` made explicit: `n` draws through the stored categorical
table, each indexing the population.  (`size()` is `1 + cat.max()`, i.e.
the table size for nonempty tables.) -/
def multinomial_draw_sample (S : multinomial_draw_sampler) (pop : List ℤ)
    (ds : ℕ → ℚ) : Except String (List ℤ) :=
  if S.n = 0 then .ok []
  else if pop.length < S.cat_param.tbl.length then
    .error "population range too small"
  else
    .ok ((List.range S.n).map
      (fun i => pop.getD (categorical_draw S.cat_param (ds i)) 0))

/-- Claim C3: the claim — the categorical parameter stored by
`param_type(n, w)` is a function of the supplied weights `w` (identical
weights give the table built over them, different weights give different
tables) — is false: the iterator constructor ignores `w` and always builds
the categorical from the hardcoded 6-entry `pbis`.  Concretely,
`param_type(1, [1,1])` and `param_type(1, [1,2])` are identical, and the
table stored by `param_type(1, [1,1])` has 6 entries where the table built
over the weights `[1,1]` has 2 — so the stored parameter is not the table
built over the supplied weights. -/
theorem multinomial_param_ignores_weights :
    multinomial_draw_param 1 [1, 1] = multinomial_draw_param 1 [1, 2] ∧
    (multinomial_draw_param 1 [1, 1]).cat_param.tbl.length = 6 ∧
    (categorical_param_ctor [1, 1]).tbl.length = 2 ∧
    (multinomial_draw_param 1 [1, 1]).cat_param ≠ categorical_param_ctor [1, 1] := by
  have h6 : (multinomial_draw_param 1 [1, 1]).cat_param.tbl.length = 6 := by
    show (categorical_param_ctor pbis).tbl.length = 6
    rw [categorical_ctor_tbl_length]; rfl
  have h2 : (categorical_param_ctor [1, 1]).tbl.length = 2 := by
    rw [categorical_ctor_tbl_length]; rfl
  refine ⟨rfl, h6, h2, fun h => ?_⟩
  rw [h, h2] at h6
  exact absurd h6 (by decide)

/-! ## Model loader: species entries (src/rdmini/rdmodel.cc) -/

/-- `std::numeric_limits<double>::epsilon() = 2⁻⁵²`. -/
def dbl_epsilon : ℚ := 1 / 2 ^ 52

/-- A species mapping as seen by `parse_species`: the `diffusivity` and
`concentration` values if the keys are present (`none` = key omitted). -/
structure species_entry where
  diffusivity : Option ℚ
  concentration : Option ℚ

/-- The numeric validation of `parse_species` (src/rdmini/rdmodel.cc,
lines 75–100): the values default to 0 when the keys are absent, and the
entry is rejected when `diffusivity < epsilon` or `concentration < epsilon`
(each with the message "Value of … is negative").  On success the parsed
pair is returned (name handling and yaml errors are outside this claim). -/
def parse_species (S : species_entry) : Except String (ℚ × ℚ) :=
  let diff_value := S.diffusivity.getD 0
  let conc_value := S.concentration.getD 0
  if diff_value < dbl_epsilon then .error "Value of diffusivity is negative"
  else if conc_value < dbl_epsilon then .error "Value of concentration is negative"
  else .ok (diff_value, conc_value)

/-- `species_info::is_valid()` (src/rdmini/rdmodel.h): a species is invalid
only when its diffusivity or concentration is strictly negative. -/
def species_is_valid (diffusivity concentration : ℚ) : Bool :=
  if diffusivity < 0 then false
  else if concentration < 0 then false
  else true

/-- Claim C9: the claim — the loader accepts any non-negative diffusivity
and concentration (defaulting to 0 when omitted) and rejects a species
entry only when a value is negative — fails on the code: `parse_species`
compares against `numeric_limits<double>::epsilon()` instead of 0, so the
entry with both keys omitted (values defaulting to 0, which the model's own
`species_info::is_valid()` accepts and which 0 ≤ ⋯ makes valid per the
claim) is rejected with "Value of diffusivity is negative", even though 0
is not negative. -/
theorem parse_species_rejects_zero_default :
    parse_species ⟨none, none⟩ = .error "Value of diffusivity is negative" ∧
    species_is_valid 0 0 = true ∧
    ¬ ((0 : ℚ) < 0) ∧ (0 : ℚ) < dbl_epsilon := by
  refine ⟨?_, ?_, by norm_num, by norm_num [dbl_epsilon]⟩
  · unfold parse_species
    norm_num [dbl_epsilon]
  · unfold species_is_valid
    norm_num
